import Mathlib

/-!
Shallow embedding of the prompt-permission backfill migration
(src/config/migrate-prompt-permissions.js) together with the parts of the
ACL engine it uses.  The store layer (grantPermission, findRoleByIdentifier,
the AclEntry collection) is not present in the sources, only its caller and
its tests are, so those operations are modelled from the specification.
Everything else is translated directly from the migration script.
-/

set_option maxRecDepth 8000

namespace PromptMigration

/-- A persisted ACL grant record (spec section 3, and the fields the
migration script and its test read and write). ObjectIds are modelled
as naturals. -/
structure AclEntry where
  principalType : String
  principalId : Option Nat
  resourceType : String
  resourceId : Nat
  permBits : Nat
  roleId : Option String
  grantedBy : Option Nat
  deriving DecidableEq

/-- A named access role (spec section 3): a resource-type-scoped bundle of
permission bits, looked up by its identifier. -/
structure AccessRole where
  accessRoleId : String
  resourceType : String
  permBits : Nat
  deriving DecidableEq

/-- A prompt group document; the aggregation projects its id and projectIds. -/
structure PromptGroup where
  _id : Nat
  projectIds : List Nat
  deriving DecidableEq

/-- A prompt document with the fields the migration reads: id, text,
author (nullable) and groupId (nullable). -/
structure Prompt where
  _id : Nat
  prompt : Option String
  author : Option Nat
  groupId : Option Nat
  deriving DecidableEq

/-- The backing store as the migration sees it: the prompt and promptgroup
collections, the aclentries collection, the seeded roles, and the result of
getProjectByName(GLOBAL_PROJECT_NAME, [promptGroupIds]). -/
structure Store where
  prompts : List Prompt
  promptGroups : List PromptGroup
  aclEntries : List AclEntry
  accessRoles : List AccessRole
  globalProject : Option (List Nat)
  deriving DecidableEq

/-- Modelled from the spec: findRoleByIdentifier(roleId) is a pure lookup of
an AccessRole by its identifier; its implementation is not in the sources. -/
def findRoleByIdentifier (roles : List AccessRole) (roleId : String) : Option AccessRole :=
  roles.find? (fun r => r.accessRoleId == roleId)

/-- The arguments of one grantPermission call, as assembled by the
migration script. -/
structure GrantCall where
  principalType : String
  principalId : Option Nat
  resourceType : String
  resourceId : Nat
  accessRoleId : String
  grantedBy : Option Nat
  deriving DecidableEq

/-- The natural key of an AclEntry (spec section 3):
(principalType, principalId, resourceType, resourceId). -/
def sameKey (a b : AclEntry) : Bool :=
  a.principalType == b.principalType && a.principalId == b.principalId &&
    a.resourceType == b.resourceType && a.resourceId == b.resourceId

/-- Upsert by natural key (spec section 3): at most one entry per key;
granting again under the same key replaces in place, otherwise the entry
is appended. -/
def upsertEntry (entries : List AclEntry) (e : AclEntry) : List AclEntry :=
  if entries.any (fun x => sameKey x e) then
    entries.map (fun x => if sameKey x e then e else x)
  else entries ++ [e]

/-- The AclEntry an accepted grant writes: the calls principal and resource,
the resolved roles permBits, the roleId set and grantedBy refreshed. -/
def mkGrantEntry (call : GrantCall) (role : AccessRole) : AclEntry :=
  { principalType := call.principalType
    principalId := call.principalId
    resourceType := call.resourceType
    resourceId := call.resourceId
    permBits := role.permBits
    roleId := some call.accessRoleId
    grantedBy := call.grantedBy }

/-- Modelled from the spec: grantPermission (PermissionService, spec
section 4.3), whose implementation is not in the sources: it resolves
accessRoleId via the role registry (CONFIG_ERROR if unknown) and upserts an
AclEntry carrying the resolved roles permBits under the natural key.  A
transient StoreError (spec section 7) is represented by the oracle fail,
which decides from the call arguments whether the store rejects it. -/
def grantPermission (roles : List AccessRole) (fail : GrantCall → Bool)
    (entries : List AclEntry) (call : GrantCall) : Except String (List AclEntry) :=
  match findRoleByIdentifier roles call.accessRoleId with
  | none => .error "CONFIG_ERROR"
  | some role =>
      if fail call then .error "StoreError"
      else .ok (upsertEntry entries (mkGrantEntry call role))

/-- The user-principal prompt AclEntries joined to a prompt by the
aggregation: entries whose resourceId is the prompt id, filtered to
resourceType prompt and principalType user. -/
def userAclEntries (entries : List AclEntry) (pid : Nat) : List AclEntry :=
  entries.filter (fun e =>
    e.resourceId == pid && e.resourceType == "prompt" && e.principalType == "user")

/-- The match stage of the aggregation: keep a prompt when its author field
is present and non-null and its user-principal AclEntry set is empty. -/
def scanKeep (entries : List AclEntry) (p : Prompt) : Bool :=
  p.author.isSome && (userAclEntries entries p._id).isEmpty

/-- A scanned prompt as produced by the aggregation pipeline: the projected
prompt fields plus the unwound promptGroup lookup (absent when the groupId
matches no group). -/
structure ScannedPrompt where
  _id : Nat
  prompt : Option String
  author : Option Nat
  groupId : Option Nat
  promptGroup : Option PromptGroup
  deriving DecidableEq

/-- The promptgroups lookup joined on groupId, unwound with
preserveNullAndEmptyArrays. -/
def lookupGroup (groups : List PromptGroup) (gid : Option Nat) : Option PromptGroup :=
  groups.find? (fun g => gid == some g._id)

/-- The whole scan aggregation of the migration script. -/
def scanPrompts (db : Store) : List ScannedPrompt :=
  (db.prompts.filter (scanKeep db.aclEntries)).map (fun p =>
    { _id := p._id
      prompt := p.prompt
      author := p.author
      groupId := p.groupId
      promptGroup := lookupGroup db.promptGroups p.groupId })

/-- globalPromptGroupIds: the promptGroupIds of the global project, or empty
when that project does not exist. -/
def globalPromptGroupIds (db : Store) : List Nat :=
  db.globalProject.getD []

/-- isGlobalGroup: the prompt has a promptGroup and its id is in the global
projects promptGroupIds. -/
def isGlobalGroup (gids : List Nat) (p : ScannedPrompt) : Bool :=
  match p.promptGroup with
  | some g => gids.contains g._id
  | none => false

/-- One dry-run sample entry: the first 50 characters of the prompt text
followed by an ellipsis, the id, and a description of the permissions the
live run would grant. -/
structure SampleEntry where
  prompt : String
  _id : Nat
  permissions : String
  deriving DecidableEq

/-- The optional-chained substring of the dry-run details: in the script a
nullish prompt text concatenates to the string undefined followed by the
ellipsis. -/
def samplePrompt (s : Option String) : String :=
  match s with
  | some t => t.take 50 ++ "..."
  | none => "undefined..."

/-- The summary block of a dry-run report. -/
structure DrySummary where
  globalViewAccess : Nat
  privatePrompts : Nat
  total : Nat
  deriving DecidableEq

/-- The details block of a dry-run report. -/
structure DryDetails where
  globalViewAccess : List SampleEntry
  privatePrompts : List SampleEntry
  deriving DecidableEq

/-- The results object accumulated by a live run. -/
structure LiveReport where
  migrated : Nat
  errors : Nat
  publicViewGrants : Nat
  ownerGrants : Nat
  deriving DecidableEq

/-- The value returned by the migration: a dry-run report (with its literal
migrated and errors fields, both zero) or the live results object. -/
inductive MigrationResult
  | dryRunReport (migrated errors : Nat) (summary : DrySummary) (details : DryDetails)
  | liveReport (r : LiveReport)
  deriving DecidableEq

/-- The evolving state of a live run: the counters, the AclEntry store, and
the trace of grantPermission calls issued so far. -/
structure LiveState where
  report : LiveReport
  entries : List AclEntry
  calls : List GrantCall
  deriving DecidableEq

/-- The owner grant the loop body issues for a prompt: the author gets the
prompt_owner role. -/
def ownerCall (p : ScannedPrompt) : GrantCall :=
  { principalType := "user"
    principalId := p.author
    resourceType := "prompt"
    resourceId := p._id
    accessRoleId := "prompt_owner"
    grantedBy := p.author }

/-- The public grant the loop body issues for a global-bucket prompt: the
Public principal gets the prompt_viewer role. -/
def publicViewCall (p : ScannedPrompt) : GrantCall :=
  { principalType := "public"
    principalId := none
    resourceType := "prompt"
    resourceId := p._id
    accessRoleId := "prompt_viewer"
    grantedBy := p.author }

/-- The body of the inner loop of the live run, one prompt at a time: the
owner grant always, the public-view grant only for global-bucket prompts;
each grantPermission exception is caught by the surrounding try, counted in
errors, and processing moves on. -/
def processItem (roles : List AccessRole) (fail : GrantCall → Bool) (gids : List Nat)
    (st : LiveState) (p : ScannedPrompt) : LiveState :=
  let isGlobal := isGlobalGroup gids p
  let st0 : LiveState := { st with calls := st.calls ++ [ownerCall p] }
  match grantPermission roles fail st0.entries (ownerCall p) with
  | .error _ =>
      { st0 with report := { st0.report with errors := st0.report.errors + 1 } }
  | .ok entries1 =>
      let st1 : LiveState :=
        { st0 with
          entries := entries1
          report := { st0.report with ownerGrants := st0.report.ownerGrants + 1 } }
      if isGlobal then
        let st2 : LiveState := { st1 with calls := st1.calls ++ [publicViewCall p] }
        match grantPermission roles fail st2.entries (publicViewCall p) with
        | .error _ =>
            { st2 with report := { st2.report with errors := st2.report.errors + 1 } }
        | .ok entries2 =>
            { st2 with
              entries := entries2
              report :=
                { st2.report with
                  publicViewGrants := st2.report.publicViewGrants + 1
                  migrated := st2.report.migrated + 1 } }
      else
        { st1 with report := { st1.report with migrated := st1.report.migrated + 1 } }

/-- The batch slices of the outer loop, fuel-indexed so that the definition
computes by structural recursion; with a positive batch size the fuel
list-length always suffices. -/
def chunksFuel (b : Nat) : Nat → List α → List (List α)
  | 0, _ => []
  | _ + 1, [] => []
  | fuel + 1, x :: xs => (x :: xs).take b :: chunksFuel b fuel ((x :: xs).drop b)

/-- The batches slice(i, i + batchSize) for i = 0, batchSize, ... of the
outer loop. -/
def chunks (b : Nat) (l : List α) : List (List α) :=
  chunksFuel b l.length l

/-- The live phase: the batches processed strictly sequentially, items
within a batch in order; the inter-batch setTimeout pause has no effect on
the store state and is not represented. -/
def runLive (roles : List AccessRole) (fail : GrantCall → Bool) (gids : List Nat)
    (batchSize : Nat) (scanned : List ScannedPrompt)
    (entries0 : List AclEntry) : LiveState :=
  (chunks batchSize scanned).foldl
    (fun st batch => batch.foldl (processItem roles fail gids) st)
    { report := ⟨0, 0, 0, 0⟩, entries := entries0, calls := [] }

/-- The precheck of the script: all three seeded prompt roles must resolve. -/
def requiredRolesPresent (db : Store) : Bool :=
  (findRoleByIdentifier db.accessRoles "prompt_owner").isSome &&
    (findRoleByIdentifier db.accessRoles "prompt_viewer").isSome &&
    (findRoleByIdentifier db.accessRoles "prompt_editor").isSome

/-- The observable outcome of one invocation of the migration: the returned
value or thrown error, the AclEntry store afterwards, and the trace of
grantPermission calls issued. -/
structure MigrationRun where
  result : Except String MigrationResult
  entries : List AclEntry
  calls : List GrantCall

/-- The batchSize default of the script signature. -/
def defaultBatchSize : Nat := 100

/-- The failure oracle of a store without transient failures. -/
def noFail : GrantCall → Bool := fun _ => false

/-- migratePromptPermissions, translated from
src/config/migrate-prompt-permissions.js: verify the roles, read the global
project, scan, categorize, then either report (dry run) or grant in
batches. -/
def migratePromptPermissions (fail : GrantCall → Bool) (db : Store)
    (dryRun : Bool) (batchSize : Nat) : MigrationRun :=
  if !requiredRolesPresent db then
    { result := .error "Required prompt roles not found. Run role seeding first."
      entries := db.aclEntries
      calls := [] }
  else
    let gids := globalPromptGroupIds db
    let scanned := scanPrompts db
    let globals := scanned.filter (isGlobalGroup gids)
    let privates := scanned.filter (fun p => !isGlobalGroup gids p)
    if dryRun then
      { result := .ok (.dryRunReport 0 0
          ⟨globals.length, privates.length, scanned.length⟩
          ⟨globals.map (fun p => ⟨samplePrompt p.prompt, p._id, "Owner + Public VIEW"⟩),
           privates.map (fun p => ⟨samplePrompt p.prompt, p._id, "Owner only"⟩)⟩)
        entries := db.aclEntries
        calls := [] }
    else
      let st := runLive db.accessRoles fail gids batchSize scanned db.aclEntries
      { result := .ok (.liveReport st.report)
        entries := st.entries
        calls := st.calls }

/-! Derived, entry-store-independent descriptions of the per-item outcomes.
Whether a grant call fails depends only on the role registry and the failure
oracle, never on the current AclEntry list, so each loop iteration has a
pure characterization. -/

/-- The owner grant of a prompt fails: owner role unresolvable or the store
rejects the call. -/
def ownerGrantFails (roles : List AccessRole) (fail : GrantCall → Bool)
    (p : ScannedPrompt) : Bool :=
  (findRoleByIdentifier roles "prompt_owner").isNone || fail (ownerCall p)

/-- The public-view grant of a prompt fails: viewer role unresolvable or the
store rejects the call. -/
def publicGrantFails (roles : List AccessRole) (fail : GrantCall → Bool)
    (p : ScannedPrompt) : Bool :=
  (findRoleByIdentifier roles "prompt_viewer").isNone || fail (publicViewCall p)

/-- The loop iteration for a prompt ends in the catch block. -/
def itemErrors (roles : List AccessRole) (fail : GrantCall → Bool) (gids : List Nat)
    (p : ScannedPrompt) : Bool :=
  ownerGrantFails roles fail p ||
    (isGlobalGroup gids p && publicGrantFails roles fail p)

/-- The loop iteration for a prompt increments publicViewGrants. -/
def itemPublicGrant (roles : List AccessRole) (fail : GrantCall → Bool) (gids : List Nat)
    (p : ScannedPrompt) : Bool :=
  isGlobalGroup gids p && !ownerGrantFails roles fail p && !publicGrantFails roles fail p

/-- The entry store after one grant call: updated on success, untouched when
the call throws. -/
def grantApply (roles : List AccessRole) (fail : GrantCall → Bool)
    (entries : List AclEntry) (call : GrantCall) : List AclEntry :=
  match grantPermission roles fail entries call with
  | .ok es => es
  | .error _ => entries

/-- The entry store after one loop iteration. -/
def itemEntries (roles : List AccessRole) (fail : GrantCall → Bool) (gids : List Nat)
    (entries : List AclEntry) (p : ScannedPrompt) : List AclEntry :=
  if ownerGrantFails roles fail p then entries
  else
    let es := grantApply roles fail entries (ownerCall p)
    if isGlobalGroup gids p then grantApply roles fail es (publicViewCall p) else es

/-- The grant calls issued during one loop iteration: the owner call always,
the public-view call only when the owner call succeeded on a global-bucket
prompt. -/
def itemCalls (roles : List AccessRole) (fail : GrantCall → Bool) (gids : List Nat)
    (p : ScannedPrompt) : List GrantCall :=
  ownerCall p ::
    (if !ownerGrantFails roles fail p && isGlobalGroup gids p then [publicViewCall p]
     else [])

/-! The two-prompt store of the spec scenarios A and B: one author, one
prompt in a group of the global project, one in a private group, no
preexisting AclEntries, all three prompt roles seeded. -/

/-- The three seeded prompt roles of the scenario: Owner = 15, Viewer = 1,
Editor = 3. -/
def scenarioRoles : List AccessRole :=
  [⟨"prompt_owner", "prompt", 15⟩,
   ⟨"prompt_viewer", "prompt", 1⟩,
   ⟨"prompt_editor", "prompt", 3⟩]

/-- The scenario store: prompts 101 (global group 11) and 102 (private group
12), both authored by user 1. -/
def scenarioDb : Store :=
  { prompts := [⟨101, some "Global prompt", some 1, some 11⟩,
                ⟨102, some "Private prompt", some 1, some 12⟩]
    promptGroups := [⟨11, [5]⟩, ⟨12, []⟩]
    aclEntries := []
    accessRoles := scenarioRoles
    globalProject := some [11] }

example :
    (migratePromptPermissions noFail scenarioDb false 100).result =
      .ok (.liveReport ⟨2, 0, 1, 2⟩) := rfl

example :
    (migratePromptPermissions noFail scenarioDb true 100).result =
      .ok (.dryRunReport 0 0 ⟨1, 1, 2⟩
        ⟨[⟨"Global prompt...", 101, "Owner + Public VIEW"⟩],
         [⟨"Private prompt...", 102, "Owner only"⟩]⟩) := rfl

/-! Basic facts about single grants. -/

/-- A grant call throws when the role is unresolvable or the store rejects
the call. -/
theorem grantPermission_of_fails (roles : List AccessRole) (fail : GrantCall → Bool)
    (entries : List AclEntry) (call : GrantCall)
    (h : ((findRoleByIdentifier roles call.accessRoleId).isNone || fail call) = true) :
    ∃ msg, grantPermission roles fail entries call = .error msg := by
  unfold grantPermission
  cases hf : findRoleByIdentifier roles call.accessRoleId with
  | none => exact ⟨_, rfl⟩
  | some role =>
      rw [hf] at h
      simp only [Option.isNone_some, Bool.false_or] at h
      simp [h]

/-- A grant call that resolves its role and is not rejected upserts the
grant entry. -/
theorem grantPermission_of_ok (roles : List AccessRole) (fail : GrantCall → Bool)
    (entries : List AclEntry) (call : GrantCall) (role : AccessRole)
    (h1 : findRoleByIdentifier roles call.accessRoleId = some role)
    (h2 : fail call = false) :
    grantPermission roles fail entries call =
      .ok (upsertEntry entries (mkGrantEntry call role)) := by
  unfold grantPermission
  rw [h1]
  simp [h2]

theorem grantApply_of_fails (roles : List AccessRole) (fail : GrantCall → Bool)
    (entries : List AclEntry) (call : GrantCall)
    (h : ((findRoleByIdentifier roles call.accessRoleId).isNone || fail call) = true) :
    grantApply roles fail entries call = entries := by
  obtain ⟨msg, hm⟩ := grantPermission_of_fails roles fail entries call h
  simp [grantApply, hm]

theorem grantApply_of_ok (roles : List AccessRole) (fail : GrantCall → Bool)
    (entries : List AclEntry) (call : GrantCall) (role : AccessRole)
    (h1 : findRoleByIdentifier roles call.accessRoleId = some role)
    (h2 : fail call = false) :
    grantApply roles fail entries call = upsertEntry entries (mkGrantEntry call role) := by
  simp [grantApply, grantPermission_of_ok roles fail entries call role h1 h2]

/-- One loop iteration, characterized: the counters move by the pure
per-item outcome predicates, the entry store moves by itemEntries, and the
issued calls are itemCalls. -/
theorem processItem_eq (roles : List AccessRole) (fail : GrantCall → Bool) (gids : List Nat)
    (st : LiveState) (p : ScannedPrompt) :
    processItem roles fail gids st p =
      { report :=
          { migrated := st.report.migrated +
              (if itemErrors roles fail gids p then 0 else 1)
            errors := st.report.errors + (if itemErrors roles fail gids p then 1 else 0)
            publicViewGrants := st.report.publicViewGrants +
              (if itemPublicGrant roles fail gids p then 1 else 0)
            ownerGrants := st.report.ownerGrants +
              (if ownerGrantFails roles fail p then 0 else 1) }
        entries := itemEntries roles fail gids st.entries p
        calls := st.calls ++ itemCalls roles fail gids p } := by
  by_cases how : ownerGrantFails roles fail p = true
  · have hof : ((findRoleByIdentifier roles (ownerCall p).accessRoleId).isNone ||
        fail (ownerCall p)) = true := how
    obtain ⟨msg, hm⟩ := grantPermission_of_fails roles fail st.entries (ownerCall p) hof
    have hie : itemErrors roles fail gids p = true := by
      simp [itemErrors, how]
    simp [processItem, hm, hie, itemEntries, how, itemCalls, itemPublicGrant]
  · rw [Bool.not_eq_true] at how
    have hparts : (findRoleByIdentifier roles "prompt_owner").isNone = false ∧
        fail (ownerCall p) = false := by
      have := how
      unfold ownerGrantFails at this
      exact Bool.or_eq_false_iff.mp this
    obtain ⟨hro, hfo⟩ := hparts
    cases hrole : findRoleByIdentifier roles "prompt_owner" with
    | none => rw [hrole] at hro; simp at hro
    | some role =>
        have hok := grantPermission_of_ok roles fail st.entries (ownerCall p) role hrole hfo
        by_cases hg : isGlobalGroup gids p = true
        · by_cases hpf : publicGrantFails roles fail p = true
          · have hpof : ((findRoleByIdentifier roles
                (publicViewCall p).accessRoleId).isNone || fail (publicViewCall p)) = true := hpf
            obtain ⟨msg, hm⟩ := grantPermission_of_fails roles fail
              (upsertEntry st.entries (mkGrantEntry (ownerCall p) role)) (publicViewCall p) hpof
            have hie : itemErrors roles fail gids p = true := by
              simp [itemErrors, hg, hpf]
            have hipg : itemPublicGrant roles fail gids p = false := by
              simp [itemPublicGrant, hpf]
            simp [processItem, hok, hg, hm, hie, hipg, itemEntries, how, itemCalls,
              grantApply_of_ok roles fail st.entries (ownerCall p) role hrole hfo,
              grantApply_of_fails _ fail _ (publicViewCall p) hpof]
          · rw [Bool.not_eq_true] at hpf
            have hpparts : (findRoleByIdentifier roles "prompt_viewer").isNone = false ∧
                fail (publicViewCall p) = false := by
              have := hpf
              unfold publicGrantFails at this
              exact Bool.or_eq_false_iff.mp this
            obtain ⟨hrv, hfv⟩ := hpparts
            cases hvrole : findRoleByIdentifier roles "prompt_viewer" with
            | none => rw [hvrole] at hrv; simp at hrv
            | some vrole =>
                have hvok := grantPermission_of_ok roles fail
                  (upsertEntry st.entries (mkGrantEntry (ownerCall p) role))
                  (publicViewCall p) vrole hvrole hfv
                have hie : itemErrors roles fail gids p = false := by
                  simp [itemErrors, how, hg, hpf]
                have hipg : itemPublicGrant roles fail gids p = true := by
                  simp [itemPublicGrant, hg, how, hpf]
                simp [processItem, hok, hg, hvok, hie, hipg, itemEntries, how, itemCalls,
                  grantApply_of_ok roles fail st.entries (ownerCall p) role hrole hfo,
                  grantApply_of_ok roles fail _ (publicViewCall p) vrole hvrole hfv]
        · rw [Bool.not_eq_true] at hg
          have hie : itemErrors roles fail gids p = false := by
            simp [itemErrors, how, hg]
          have hipg : itemPublicGrant roles fail gids p = false := by
            simp [itemPublicGrant, hg]
          simp [processItem, hok, hg, hie, hipg, itemEntries, how, itemCalls,
            grantApply_of_ok roles fail st.entries (ownerCall p) role hrole hfo]

/-- The whole inner processing fold, characterized: the four counters are
countP of the per-item outcome predicates, the entry store is the itemEntries
fold, and the call trace is the concatenation of the per-item call lists. -/
theorem foldl_processItem_eq (roles : List AccessRole) (fail : GrantCall → Bool)
    (gids : List Nat) (l : List ScannedPrompt) (st : LiveState) :
    l.foldl (processItem roles fail gids) st =
      { report :=
          { migrated := st.report.migrated +
              l.countP (fun p => !itemErrors roles fail gids p)
            errors := st.report.errors + l.countP (itemErrors roles fail gids)
            publicViewGrants := st.report.publicViewGrants +
              l.countP (itemPublicGrant roles fail gids)
            ownerGrants := st.report.ownerGrants +
              l.countP (fun p => !ownerGrantFails roles fail p) }
        entries := l.foldl (itemEntries roles fail gids) st.entries
        calls := st.calls ++ (l.map (itemCalls roles fail gids)).flatten } := by
  induction l generalizing st with
  | nil => simp
  | cons p l ih =>
      rw [List.foldl_cons, processItem_eq, ih]
      simp only [List.countP_cons, List.map_cons, List.flatten_cons, List.foldl_cons,
        List.append_assoc]
      cases h1 : itemErrors roles fail gids p <;>
        cases h2 : itemPublicGrant roles fail gids p <;>
          cases h3 : ownerGrantFails roles fail p <;>
            simp [h1, h2, h3, LiveState.mk.injEq, LiveReport.mk.injEq] <;> omega

/-- The fuel-indexed batch slices concatenate back to the input whenever the
fuel covers the list and the batch size is positive. -/
theorem chunksFuel_flatten {α : Type} (b : Nat) (hb : 0 < b) :
    ∀ (fuel : Nat) (l : List α), l.length ≤ fuel → (chunksFuel b fuel l).flatten = l := by
  intro fuel
  induction fuel with
  | zero =>
      intro l hl
      have : l = [] := List.length_eq_zero.mp (Nat.le_zero.mp hl)
      subst this
      simp [chunksFuel]
  | succ n ih =>
      intro l hl
      cases l with
      | nil => simp [chunksFuel]
      | cons x xs =>
          simp only [chunksFuel, List.flatten_cons]
          rw [ih]
          · exact List.take_append_drop b (x :: xs)
          · simp only [List.length_drop, List.length_cons]
            simp only [List.length_cons] at hl
            omega

/-- The batch slices concatenate back to the scanned list. -/
theorem chunks_flatten {α : Type} (b : Nat) (hb : 0 < b) (l : List α) :
    (chunks b l).flatten = l :=
  chunksFuel_flatten b hb l.length l le_rfl

/-- Batch number i is exactly the slice of length b starting at offset
i * b, matching slice(i, i + batchSize) of the script. -/
theorem chunksFuel_get? {α : Type} (b : Nat) (hb : 0 < b) :
    ∀ (fuel : Nat) (l : List α), l.length ≤ fuel → ∀ i,
      (chunksFuel b fuel l).get? i =
        if i * b < l.length then some ((l.drop (i * b)).take b) else none := by
  intro fuel
  induction fuel with
  | zero =>
      intro l hl i
      have : l = [] := List.length_eq_zero.mp (Nat.le_zero.mp hl)
      subst this
      simp [chunksFuel]
  | succ n ih =>
      intro l hl i
      cases l with
      | nil => simp [chunksFuel]
      | cons x xs =>
          cases i with
          | zero =>
              simp [chunksFuel]
          | succ i =>
              simp only [chunksFuel, List.get?_cons_succ]
              rw [ih ((x :: xs).drop b) (by
                simp only [List.length_drop, List.length_cons]
                simp only [List.length_cons] at hl
                omega) i]
              have hdd : ((x :: xs).drop b).drop (i * b) = (x :: xs).drop ((i + 1) * b) := by
                rw [List.drop_drop]
                congr 1
                ring
              rw [hdd]
              simp only [List.length_drop, List.length_cons]
              have hmul : (i + 1) * b = i * b + b := Nat.succ_mul i b
              by_cases hc : i * b < xs.length + 1 - b
              · rw [if_pos hc, if_pos (by omega)]
              · rw [if_neg hc, if_neg (by omega)]

/-- The live phase is the plain sequential fold of the loop body over the
scanned prompts, in scan order. -/
theorem runLive_eq_foldl (roles : List AccessRole) (fail : GrantCall → Bool)
    (gids : List Nat) (b : Nat) (hb : 0 < b) (scanned : List ScannedPrompt)
    (entries0 : List AclEntry) :
    runLive roles fail gids b scanned entries0 =
      scanned.foldl (processItem roles fail gids)
        { report := ⟨0, 0, 0, 0⟩, entries := entries0, calls := [] } := by
  unfold runLive
  conv_rhs => rw [← chunks_flatten b hb scanned]
  rw [List.foldl_flatten]

/-- A full live run with the role precheck passed, characterized. -/
theorem migrate_live_spec (db : Store) (fail : GrantCall → Bool) (b : Nat)
    (hb : 0 < b) (hr : requiredRolesPresent db = true) :
    migratePromptPermissions fail db false b =
      { result := .ok (.liveReport
          ⟨(scanPrompts db).countP
              (fun p => !itemErrors db.accessRoles fail (globalPromptGroupIds db) p),
            (scanPrompts db).countP (itemErrors db.accessRoles fail (globalPromptGroupIds db)),
            (scanPrompts db).countP
              (itemPublicGrant db.accessRoles fail (globalPromptGroupIds db)),
            (scanPrompts db).countP (fun p => !ownerGrantFails db.accessRoles fail p)⟩)
        entries := (scanPrompts db).foldl
          (itemEntries db.accessRoles fail (globalPromptGroupIds db)) db.aclEntries
        calls := ((scanPrompts db).map
          (itemCalls db.accessRoles fail (globalPromptGroupIds db))).flatten } := by
  unfold migratePromptPermissions
  rw [hr]
  simp only [Bool.not_true, Bool.false_eq_true, if_false]
  rw [runLive_eq_foldl db.accessRoles fail (globalPromptGroupIds db) b hb
    (scanPrompts db) db.aclEntries, foldl_processItem_eq]
  simp

/-- Bool-level form of the existence of a user-principal prompt AclEntry for
a resource: the scan keeps exactly the prompts with an author and without
such an entry. -/
def hasUserPromptEntry (entries : List AclEntry) (rid : Nat) : Bool :=
  entries.any (fun e =>
    e.resourceId == rid && e.resourceType == "prompt" && e.principalType == "user")

theorem filter_isEmpty_eq_not_any {α : Type} (q : α → Bool) (l : List α) :
    (l.filter q).isEmpty = !(l.any q) := by
  induction l with
  | nil => rfl
  | cons x xs ih => cases hq : q x <;> simp [List.filter_cons, hq, ih]

theorem scanKeep_eq (entries : List AclEntry) (p : Prompt) :
    scanKeep entries p = (p.author.isSome && !hasUserPromptEntry entries p._id) := by
  unfold scanKeep hasUserPromptEntry userAclEntries
  rw [filter_isEmpty_eq_not_any]

/-! Facts about the upsert of a grant entry. -/

theorem mem_upsertEntry_self (entries : List AclEntry) (e : AclEntry) :
    e ∈ upsertEntry entries e := by
  unfold upsertEntry
  by_cases h : entries.any (fun x => sameKey x e) = true
  · rw [if_pos h]
    obtain ⟨x, hx, hkey⟩ := List.any_eq_true.mp h
    exact List.mem_map.mpr ⟨x, hx, by simp [hkey]⟩
  · rw [if_neg h]
    simp

theorem mem_upsertEntry_of_not_key (entries : List AclEntry) (e x : AclEntry)
    (hx : x ∈ entries) (hk : sameKey x e = false) :
    x ∈ upsertEntry entries e := by
  unfold upsertEntry
  by_cases h : entries.any (fun y => sameKey y e) = true
  · rw [if_pos h]
    exact List.mem_map.mpr ⟨x, hx, by simp [hk]⟩
  · rw [if_neg h]
    exact List.mem_append.mpr (Or.inl hx)

theorem sameKey_fields (x e : AclEntry) (h : sameKey x e = true) :
    x.principalType = e.principalType ∧ x.principalId = e.principalId ∧
      x.resourceType = e.resourceType ∧ x.resourceId = e.resourceId := by
  unfold sameKey at h
  simp only [Bool.and_eq_true, beq_iff_eq] at h
  tauto

/-- Upserting any entry preserves the presence of a user-principal prompt
entry for a resource: a key-matching replacement keeps the key fields. -/
theorem hasUser_upsertEntry (entries : List AclEntry) (e : AclEntry) (rid : Nat)
    (h : hasUserPromptEntry entries rid = true) :
    hasUserPromptEntry (upsertEntry entries e) rid = true := by
  rw [hasUserPromptEntry, List.any_eq_true] at h ⊢
  obtain ⟨x, hx, hpx⟩ := h
  by_cases hk : sameKey x e = true
  · obtain ⟨h1, _, h3, h4⟩ := sameKey_fields x e hk
    refine ⟨e, mem_upsertEntry_self entries e, ?_⟩
    simp only [Bool.and_eq_true, beq_iff_eq] at hpx ⊢
    rw [← h1, ← h3, ← h4]
    exact hpx
  · have hk' : sameKey x e = false := by
      cases hsk : sameKey x e
      · rfl
      · exact absurd hsk hk
    exact ⟨x, mem_upsertEntry_of_not_key entries e x hx hk', hpx⟩

/-- A grant that returns ok did resolve a role and upserted its entry. -/
theorem grantPermission_ok_shape (roles : List AccessRole) (fail : GrantCall → Bool)
    (entries : List AclEntry) (call : GrantCall) (es : List AclEntry)
    (h : grantPermission roles fail entries call = .ok es) :
    ∃ role, findRoleByIdentifier roles call.accessRoleId = some role ∧
      es = upsertEntry entries (mkGrantEntry call role) := by
  unfold grantPermission at h
  cases hf : findRoleByIdentifier roles call.accessRoleId with
  | none => rw [hf] at h; simp at h
  | some role =>
      rw [hf] at h
      by_cases hfc : fail call = true
      · simp [hfc] at h
      · rw [Bool.not_eq_true] at hfc
        simp only [hfc, Bool.false_eq_true, if_false, Except.ok.injEq] at h
        exact ⟨role, rfl, h.symm⟩

theorem hasUser_grantApply (roles : List AccessRole) (fail : GrantCall → Bool)
    (entries : List AclEntry) (call : GrantCall) (rid : Nat)
    (h : hasUserPromptEntry entries rid = true) :
    hasUserPromptEntry (grantApply roles fail entries call) rid = true := by
  unfold grantApply
  cases hg : grantPermission roles fail entries call with
  | error msg => exact h
  | ok es =>
      obtain ⟨role, _, hes⟩ := grantPermission_ok_shape roles fail entries call es hg
      subst hes
      exact hasUser_upsertEntry entries (mkGrantEntry call role) rid h

theorem hasUser_itemEntries (roles : List AccessRole) (fail : GrantCall → Bool)
    (gids : List Nat) (entries : List AclEntry) (p : ScannedPrompt) (rid : Nat)
    (h : hasUserPromptEntry entries rid = true) :
    hasUserPromptEntry (itemEntries roles fail gids entries p) rid = true := by
  unfold itemEntries
  by_cases ho : ownerGrantFails roles fail p = true
  · rw [if_pos ho]; exact h
  · rw [if_neg ho]
    by_cases hg : isGlobalGroup gids p = true
    · rw [if_pos hg]
      exact hasUser_grantApply _ _ _ _ _ (hasUser_grantApply _ _ _ _ _ h)
    · rw [if_neg hg]
      exact hasUser_grantApply _ _ _ _ _ h

theorem hasUser_foldl_itemEntries (roles : List AccessRole) (fail : GrantCall → Bool)
    (gids : List Nat) (l : List ScannedPrompt) (entries : List AclEntry) (rid : Nat)
    (h : hasUserPromptEntry entries rid = true) :
    hasUserPromptEntry (l.foldl (itemEntries roles fail gids) entries) rid = true := by
  induction l generalizing entries with
  | nil => exact h
  | cons p l ih => exact ih _ (hasUser_itemEntries roles fail gids entries p rid h)

/-- A successful owner grant leaves a user-principal prompt entry for the
prompt, whatever happens to the public grant afterwards. -/
theorem hasUser_itemEntries_self (roles : List AccessRole) (fail : GrantCall → Bool)
    (gids : List Nat) (entries : List AclEntry) (p : ScannedPrompt)
    (ho : ownerGrantFails roles fail p = false) :
    hasUserPromptEntry (itemEntries roles fail gids entries p) p._id = true := by
  unfold itemEntries
  rw [if_neg (by simp [ho])]
  obtain ⟨hro, hfo⟩ := Bool.or_eq_false_iff.mp ho
  cases hrole : findRoleByIdentifier roles "prompt_owner" with
  | none => rw [hrole] at hro; simp at hro
  | some role =>
      have hga := grantApply_of_ok roles fail entries (ownerCall p) role hrole hfo
      have hbase : hasUserPromptEntry
          (grantApply roles fail entries (ownerCall p)) p._id = true := by
        rw [hga, hasUserPromptEntry, List.any_eq_true]
        exact ⟨mkGrantEntry (ownerCall p) role,
          mem_upsertEntry_self entries (mkGrantEntry (ownerCall p) role),
          by simp [mkGrantEntry, ownerCall]⟩
      by_cases hg : isGlobalGroup gids p = true
      · rw [if_pos hg]
        exact hasUser_grantApply _ _ _ _ _ hbase
      · rw [if_neg hg]
        exact hbase

/-- Once the owner grants of all prompts of a list have succeeded, every one
of them has a user-principal entry in the final store. -/
theorem hasUser_foldl_all (roles : List AccessRole) (fail : GrantCall → Bool)
    (gids : List Nat) (l : List ScannedPrompt) (entries : List AclEntry)
    (ho : ∀ p ∈ l, ownerGrantFails roles fail p = false) :
    ∀ p ∈ l, hasUserPromptEntry (l.foldl (itemEntries roles fail gids) entries) p._id = true := by
  induction l generalizing entries with
  | nil => intro p hp; simp at hp
  | cons q l ih =>
      intro p hp
      rw [List.foldl_cons]
      rcases List.mem_cons.mp hp with h | h
      · subst h
        exact hasUser_foldl_itemEntries roles fail gids l _ p._id
          (hasUser_itemEntries_self roles fail gids entries p (ho p hp))
      · exact ih _ (fun r hr => ho r (List.mem_cons_of_mem q hr)) p h

/-! Entries for other resources are never touched by a grant for a prompt. -/

theorem mem_grantApply_of_ne (roles : List AccessRole) (fail : GrantCall → Bool)
    (entries : List AclEntry) (call : GrantCall) (x : AclEntry)
    (hx : x ∈ entries) (hne : x.resourceId ≠ call.resourceId) :
    x ∈ grantApply roles fail entries call := by
  unfold grantApply
  cases hg : grantPermission roles fail entries call with
  | error msg => exact hx
  | ok es =>
      obtain ⟨role, _, hes⟩ := grantPermission_ok_shape roles fail entries call es hg
      subst hes
      refine mem_upsertEntry_of_not_key entries (mkGrantEntry call role) x hx ?_
      unfold sameKey mkGrantEntry
      simp only [Bool.and_eq_false_iff, beq_eq_false_iff_ne, ne_eq]
      tauto

theorem mem_itemEntries_of_ne (roles : List AccessRole) (fail : GrantCall → Bool)
    (gids : List Nat) (entries : List AclEntry) (p : ScannedPrompt) (x : AclEntry)
    (hx : x ∈ entries) (hne : x.resourceId ≠ p._id) :
    x ∈ itemEntries roles fail gids entries p := by
  unfold itemEntries
  by_cases ho : ownerGrantFails roles fail p = true
  · rw [if_pos ho]; exact hx
  · rw [if_neg ho]
    have h1 : x ∈ grantApply roles fail entries (ownerCall p) :=
      mem_grantApply_of_ne roles fail entries (ownerCall p) x hx hne
    by_cases hg : isGlobalGroup gids p = true
    · rw [if_pos hg]
      exact mem_grantApply_of_ne roles fail _ (publicViewCall p) x h1 hne
    · rw [if_neg hg]
      exact h1

theorem mem_foldl_itemEntries_of_ne (roles : List AccessRole) (fail : GrantCall → Bool)
    (gids : List Nat) (l : List ScannedPrompt) (entries : List AclEntry) (x : AclEntry)
    (hx : x ∈ entries) (hne : ∀ p ∈ l, x.resourceId ≠ p._id) :
    x ∈ l.foldl (itemEntries roles fail gids) entries := by
  induction l generalizing entries with
  | nil => exact hx
  | cons q l ih =>
      rw [List.foldl_cons]
      exact ih _
        (mem_itemEntries_of_ne roles fail gids entries q x hx (hne q (List.mem_cons_self q l)))
        (fun p hp => hne p (List.mem_cons_of_mem q hp))

/-! The scan, membership-wise. -/

/-- The pipeline image of one kept prompt document. -/
def toScanned (db : Store) (p : Prompt) : ScannedPrompt :=
  { _id := p._id
    prompt := p.prompt
    author := p.author
    groupId := p.groupId
    promptGroup := lookupGroup db.promptGroups p.groupId }

theorem mem_scanPrompts_iff (db : Store) (q : ScannedPrompt) :
    q ∈ scanPrompts db ↔
      ∃ p ∈ db.prompts, scanKeep db.aclEntries p = true ∧ q = toScanned db p := by
  unfold scanPrompts toScanned
  constructor
  · intro h
    obtain ⟨p, hp, hq⟩ := List.mem_map.mp h
    obtain ⟨hmem, hkeep⟩ := List.mem_filter.mp hp
    exact ⟨p, hmem, hkeep, hq.symm⟩
  · rintro ⟨p, hmem, hkeep, rfl⟩
    exact List.mem_map.mpr ⟨p, List.mem_filter.mpr ⟨hmem, hkeep⟩, rfl⟩

theorem toScanned_mem_scanPrompts (db : Store) (p : Prompt)
    (hmem : p ∈ db.prompts) (hkeep : scanKeep db.aclEntries p = true) :
    toScanned db p ∈ scanPrompts db :=
  (mem_scanPrompts_iff db (toScanned db p)).mpr ⟨p, hmem, hkeep, rfl⟩

/-- With the owner role seeded and no transient failures, no owner grant
fails. -/
theorem ownerGrantFails_noFail (roles : List AccessRole) (p : ScannedPrompt)
    (hr : (findRoleByIdentifier roles "prompt_owner").isSome = true) :
    ownerGrantFails roles noFail p = false := by
  unfold ownerGrantFails noFail
  cases h : findRoleByIdentifier roles "prompt_owner" with
  | none => rw [h] at hr; simp at hr
  | some role => simp

/-- With the viewer role seeded and no transient failures, no public-view
grant fails. -/
theorem publicGrantFails_noFail (roles : List AccessRole) (p : ScannedPrompt)
    (hr : (findRoleByIdentifier roles "prompt_viewer").isSome = true) :
    publicGrantFails roles noFail p = false := by
  unfold publicGrantFails noFail
  cases h : findRoleByIdentifier roles "prompt_viewer" with
  | none => rw [h] at hr; simp at hr
  | some role => simp

theorem requiredRolesPresent_parts (db : Store) (hr : requiredRolesPresent db = true) :
    (findRoleByIdentifier db.accessRoles "prompt_owner").isSome = true ∧
      (findRoleByIdentifier db.accessRoles "prompt_viewer").isSome = true ∧
      (findRoleByIdentifier db.accessRoles "prompt_editor").isSome = true := by
  unfold requiredRolesPresent at hr
  simp only [Bool.and_eq_true] at hr
  tauto

/-- A run with a missing role throws the seeding error before touching or
even scanning anything, in both modes. -/
theorem migrate_error_spec (db : Store) (fail : GrantCall → Bool) (dr : Bool) (b : Nat)
    (hr : requiredRolesPresent db = false) :
    migratePromptPermissions fail db dr b =
      { result := .error "Required prompt roles not found. Run role seeding first."
        entries := db.aclEntries
        calls := [] } := by
  unfold migratePromptPermissions
  rw [hr]
  simp

/-- A dry run with the precheck passed, characterized: the categorized
report, the store unchanged, no call issued. -/
theorem migrate_dry_spec (db : Store) (fail : GrantCall → Bool) (b : Nat)
    (hr : requiredRolesPresent db = true) :
    migratePromptPermissions fail db true b =
      { result := .ok (.dryRunReport 0 0
          ⟨((scanPrompts db).filter (isGlobalGroup (globalPromptGroupIds db))).length,
           ((scanPrompts db).filter
              (fun p => !isGlobalGroup (globalPromptGroupIds db) p)).length,
           (scanPrompts db).length⟩
          ⟨((scanPrompts db).filter (isGlobalGroup (globalPromptGroupIds db))).map
              (fun p => ⟨samplePrompt p.prompt, p._id, "Owner + Public VIEW"⟩),
           ((scanPrompts db).filter
              (fun p => !isGlobalGroup (globalPromptGroupIds db) p)).map
              (fun p => ⟨samplePrompt p.prompt, p._id, "Owner only"⟩)⟩)
        entries := db.aclEntries
        calls := [] } := by
  unfold migratePromptPermissions
  rw [hr]
  simp

theorem countP_not_add_countP {α : Type} (p : α → Bool) (l : List α) :
    l.countP (fun a => !p a) + l.countP p = l.length := by
  induction l with
  | nil => rfl
  | cons x xs ih => cases h : p x <;> simp [List.countP_cons, h] <;> omega

theorem length_filter_partition {α : Type} (p : α → Bool) (l : List α) :
    l.length = (l.filter p).length + (l.filter (fun a => !p a)).length := by
  induction l with
  | nil => rfl
  | cons x xs ih => cases h : p x <;> simp [List.filter_cons, h, ih] <;> omega

/-- The only calls one loop iteration can issue are the owner call and the
public-view call of its prompt. -/
theorem mem_itemCalls (roles : List AccessRole) (fail : GrantCall → Bool) (gids : List Nat)
    (q : ScannedPrompt) (c : GrantCall) (hc : c ∈ itemCalls roles fail gids q) :
    c = ownerCall q ∨ c = publicViewCall q := by
  unfold itemCalls at hc
  rcases List.mem_cons.mp hc with h | h
  · exact Or.inl h
  · by_cases hcond : (!ownerGrantFails roles fail q && isGlobalGroup gids q) = true
    · rw [if_pos hcond] at h
      simp only [List.mem_singleton] at h
      exact Or.inr h
    · rw [if_neg hcond] at h
      simp at h

/-- Every call a live run issues is the owner call or the public-view call
of some scanned prompt. -/
theorem migrate_calls_cases (db : Store) (fail : GrantCall → Bool) (b : Nat)
    (hb : 0 < b) (c : GrantCall)
    (hc : c ∈ (migratePromptPermissions fail db false b).calls) :
    ∃ q ∈ scanPrompts db, c = ownerCall q ∨ c = publicViewCall q := by
  by_cases hr : requiredRolesPresent db = true
  · rw [migrate_live_spec db fail b hb hr] at hc
    simp only [List.mem_flatten, List.mem_map] at hc
    obtain ⟨cl, ⟨q, hq, rfl⟩, hcin⟩ := hc
    exact ⟨q, hq, mem_itemCalls db.accessRoles fail (globalPromptGroupIds db) q c hcin⟩
  · rw [Bool.not_eq_true] at hr
    rw [migrate_error_spec db fail false b hr] at hc
    simp at hc

/-! Concrete fixtures for the claim witnesses. -/

/-- An oracle that rejects exactly the public-principal grants, to exercise
the per-item catch. -/
def failPublicOracle : GrantCall → Bool := fun c => c.principalType == "public"

/-- A preexisting user-principal owner grant for prompt 103. -/
def preGrantedEntry : AclEntry :=
  { principalType := "user"
    principalId := some 2
    resourceType := "prompt"
    resourceId := 103
    permBits := 15
    roleId := some "prompt_owner"
    grantedBy := some 2 }

/-- A prompt already covered by a user-principal AclEntry. -/
def coveredPrompt : Prompt := ⟨103, some "Covered prompt", some 2, some 12⟩

/-- The scenario store plus a prompt already covered by a user-principal
AclEntry. -/
def coveredDb : Store :=
  { scenarioDb with
    prompts := scenarioDb.prompts ++ [coveredPrompt]
    aclEntries := [preGrantedEntry] }

/-- A prompt document without an author. -/
def orphanPrompt : Prompt := ⟨104, some "Orphan prompt", none, some 12⟩

/-- The scenario store plus an authorless prompt. -/
def orphanDb : Store := { scenarioDb with prompts := scenarioDb.prompts ++ [orphanPrompt] }

/-- The scenario store with the editor role left unseeded. -/
def noEditorDb : Store :=
  { scenarioDb with
    accessRoles := [⟨"prompt_owner", "prompt", 15⟩, ⟨"prompt_viewer", "prompt", 1⟩] }

/-! The claims. -/

/-- C2: migratePromptPermissions with dryRun true never creates, updates, or
deletes any AclEntry: the store comes back unchanged, no grantPermission
call is ever issued, and with the precheck passed the returned value is the
report of per-bucket counts and per-bucket samples only. -/
theorem migrate_dry_run_no_mutations (db : Store) (fail : GrantCall → Bool) (b : Nat) :
    (migratePromptPermissions fail db true b).entries = db.aclEntries ∧
      (migratePromptPermissions fail db true b).calls = [] ∧
      (requiredRolesPresent db = true →
        (migratePromptPermissions fail db true b).result =
          .ok (.dryRunReport 0 0
            ⟨((scanPrompts db).filter (isGlobalGroup (globalPromptGroupIds db))).length,
             ((scanPrompts db).filter
                (fun p => !isGlobalGroup (globalPromptGroupIds db) p)).length,
             (scanPrompts db).length⟩
            ⟨((scanPrompts db).filter (isGlobalGroup (globalPromptGroupIds db))).map
                (fun p => ⟨samplePrompt p.prompt, p._id, "Owner + Public VIEW"⟩),
             ((scanPrompts db).filter
                (fun p => !isGlobalGroup (globalPromptGroupIds db) p)).map
                (fun p => ⟨samplePrompt p.prompt, p._id, "Owner only"⟩)⟩)) := by
  by_cases hr : requiredRolesPresent db = true
  · rw [migrate_dry_spec db fail b hr]
    exact ⟨rfl, rfl, fun _ => rfl⟩
  · rw [Bool.not_eq_true] at hr
    rw [migrate_error_spec db fail true b hr]
    refine ⟨rfl, rfl, fun h => ?_⟩
    rw [hr] at h
    simp at h

theorem migrate_dry_run_no_mutations_witness :
    (migratePromptPermissions noFail scenarioDb true 100).entries = scenarioDb.aclEntries ∧
      (migratePromptPermissions noFail scenarioDb true 100).calls = [] ∧
      (migratePromptPermissions noFail scenarioDb true 100).result =
        .ok (.dryRunReport 0 0 ⟨1, 1, 2⟩
          ⟨[⟨"Global prompt...", 101, "Owner + Public VIEW"⟩],
           [⟨"Private prompt...", 102, "Owner only"⟩]⟩) := by
  have h := migrate_dry_run_no_mutations scenarioDb noFail 100
  exact ⟨h.1, h.2.1, (h.2.2 rfl).trans (by rfl)⟩

/-- C10: the migration requires all three prompt roles before doing
anything: with any of them absent (the never-granted editor role included)
it throws the seeding error in both modes with the store untouched and no
call issued; with all three present it returns normally, and no call it
ever issues uses the editor role. -/
theorem migrate_requires_roles (db : Store) (fail : GrantCall → Bool) (dr : Bool)
    (b : Nat) (hb : 0 < b) :
    (requiredRolesPresent db = false →
        migratePromptPermissions fail db dr b =
          { result := .error "Required prompt roles not found. Run role seeding first."
            entries := db.aclEntries
            calls := [] }) ∧
      ((findRoleByIdentifier db.accessRoles "prompt_editor").isSome = false →
        requiredRolesPresent db = false) ∧
      (requiredRolesPresent db = true →
        ∃ r, (migratePromptPermissions fail db dr b).result = .ok r) ∧
      (∀ c ∈ (migratePromptPermissions fail db dr b).calls,
        c.accessRoleId = "prompt_owner" ∨ c.accessRoleId = "prompt_viewer") := by
  refine ⟨?_, ?_, ?_, ?_⟩
  · intro hr
    exact migrate_error_spec db fail dr b hr
  · intro he
    unfold requiredRolesPresent
    rw [he]
    simp
  · intro hr
    cases dr
    · rw [migrate_live_spec db fail b hb hr]
      exact ⟨_, rfl⟩
    · rw [migrate_dry_spec db fail b hr]
      exact ⟨_, rfl⟩
  · intro c hc
    cases dr
    · obtain ⟨q, _, hcase⟩ := migrate_calls_cases db fail b hb c hc
      rcases hcase with rfl | rfl
      · exact Or.inl rfl
      · exact Or.inr rfl
    · by_cases hr : requiredRolesPresent db = true
      · rw [migrate_dry_spec db fail b hr] at hc
        simp at hc
      · rw [Bool.not_eq_true] at hr
        rw [migrate_error_spec db fail true b hr] at hc
        simp at hc

theorem migrate_requires_roles_witness :
    migratePromptPermissions noFail noEditorDb false 100 =
      { result := .error "Required prompt roles not found. Run role seeding first."
        entries := noEditorDb.aclEntries
        calls := [] } :=
  (migrate_requires_roles noEditorDb noFail false 100 (by decide)).1 rfl

/-- C3: per-item exceptions in a live run are caught and counted: with the
precheck passed the run returns normally, its errors counter counts exactly
the items on which a grant call threw, and every scanned item is still
accounted for in migrated + errors; the migration itself throws only when
the role precheck fails. -/
theorem migrate_per_item_error_isolation (db : Store) (fail : GrantCall → Bool)
    (b : Nat) (hb : 0 < b) :
    (requiredRolesPresent db = false →
        (migratePromptPermissions fail db false b).result =
          .error "Required prompt roles not found. Run role seeding first.") ∧
      (requiredRolesPresent db = true →
        (migratePromptPermissions fail db false b).result =
          .ok (.liveReport
            ⟨(scanPrompts db).countP
                (fun p => !itemErrors db.accessRoles fail (globalPromptGroupIds db) p),
              (scanPrompts db).countP
                (itemErrors db.accessRoles fail (globalPromptGroupIds db)),
              (scanPrompts db).countP
                (itemPublicGrant db.accessRoles fail (globalPromptGroupIds db)),
              (scanPrompts db).countP
                (fun p => !ownerGrantFails db.accessRoles fail p)⟩) ∧
        (scanPrompts db).countP
            (fun p => !itemErrors db.accessRoles fail (globalPromptGroupIds db) p) +
          (scanPrompts db).countP
            (itemErrors db.accessRoles fail (globalPromptGroupIds db)) =
          (scanPrompts db).length) := by
  constructor
  · intro hr
    rw [migrate_error_spec db fail false b hr]
  · intro hr
    refine ⟨?_, ?_⟩
    · rw [migrate_live_spec db fail b hb hr]
    · exact countP_not_add_countP
        (itemErrors db.accessRoles fail (globalPromptGroupIds db)) (scanPrompts db)

theorem migrate_per_item_error_isolation_witness :
    (migratePromptPermissions failPublicOracle scenarioDb false 100).result =
      .ok (.liveReport ⟨1, 1, 0, 2⟩) := by
  have h := (migrate_per_item_error_isolation scenarioDb failPublicOracle 100 (by decide)).2 rfl
  exact h.1.trans (by rfl)

/-- C9: in every live run each scanned prompt lands in exactly one of the
migrated or errors counters, so migrated + errors is the scan size; migrated
never exceeds ownerGrants (an item whose public grant fails after a
successful owner grant counts in ownerGrants and errors but not migrated),
and publicViewGrants is at most the number of global-bucket items. -/
theorem migrate_counter_invariants (db : Store) (fail : GrantCall → Bool) (b : Nat)
    (r : LiveReport) (hb : 0 < b) (hr : requiredRolesPresent db = true)
    (hres : (migratePromptPermissions fail db false b).result = .ok (.liveReport r)) :
    r.migrated + r.errors = (scanPrompts db).length ∧
      r.migrated ≤ r.ownerGrants ∧
      r.publicViewGrants ≤
        ((scanPrompts db).filter (isGlobalGroup (globalPromptGroupIds db))).length := by
  rw [migrate_live_spec db fail b hb hr] at hres
  simp only [Except.ok.injEq, MigrationResult.liveReport.injEq] at hres
  subst hres
  refine ⟨countP_not_add_countP
      (itemErrors db.accessRoles fail (globalPromptGroupIds db)) (scanPrompts db), ?_, ?_⟩
  · refine List.countP_mono_left ?_
    intro p _ h
    simp only [Bool.not_eq_true'] at h ⊢
    unfold itemErrors at h
    exact (Bool.or_eq_false_iff.mp h).1
  · rw [← List.countP_eq_length_filter]
    refine List.countP_mono_left ?_
    intro p _ h
    unfold itemPublicGrant at h
    simp only [Bool.and_eq_true] at h
    exact h.1.1

theorem migrate_counter_invariants_witness :
    (1 : Nat) + 1 = (scanPrompts scenarioDb).length ∧
      (1 : Nat) ≤ 2 ∧
      (0 : Nat) ≤
        ((scanPrompts scenarioDb).filter
          (isGlobalGroup (globalPromptGroupIds scenarioDb))).length :=
  migrate_counter_invariants scenarioDb failPublicOracle 100 ⟨1, 1, 0, 2⟩ (by decide) rfl rfl

/-- C6: categorization partitions the scan: the dry report always satisfies
total = globalViewAccess + privatePrompts, every scanned prompt belongs to
exactly one of the two buckets, and the dry run over one global and one
private prompt reports total 2, globalViewAccess 1, privatePrompts 1. -/
theorem migrate_categorization_partition (db : Store) (fail : GrantCall → Bool) (b : Nat)
    (hr : requiredRolesPresent db = true) :
    (∃ d, (migratePromptPermissions fail db true b).result =
        .ok (.dryRunReport 0 0
          ⟨((scanPrompts db).filter (isGlobalGroup (globalPromptGroupIds db))).length,
           ((scanPrompts db).filter
              (fun p => !isGlobalGroup (globalPromptGroupIds db) p)).length,
           (scanPrompts db).length⟩ d)) ∧
      (scanPrompts db).length =
        ((scanPrompts db).filter (isGlobalGroup (globalPromptGroupIds db))).length +
          ((scanPrompts db).filter
            (fun p => !isGlobalGroup (globalPromptGroupIds db) p)).length ∧
      (∀ p ∈ scanPrompts db,
        (p ∈ (scanPrompts db).filter (isGlobalGroup (globalPromptGroupIds db)) ↔
          isGlobalGroup (globalPromptGroupIds db) p = true) ∧
        (p ∈ (scanPrompts db).filter
            (fun q => !isGlobalGroup (globalPromptGroupIds db) q) ↔
          isGlobalGroup (globalPromptGroupIds db) p = false)) ∧
      (migratePromptPermissions noFail scenarioDb true 100).result =
        .ok (.dryRunReport 0 0 ⟨1, 1, 2⟩
          ⟨[⟨"Global prompt...", 101, "Owner + Public VIEW"⟩],
           [⟨"Private prompt...", 102, "Owner only"⟩]⟩) := by
  refine ⟨?_, ?_, ?_, rfl⟩
  · rw [migrate_dry_spec db fail b hr]
    exact ⟨_, rfl⟩
  · exact length_filter_partition (isGlobalGroup (globalPromptGroupIds db)) (scanPrompts db)
  · intro p hp
    constructor
    · constructor
      · intro h
        exact (List.mem_filter.mp h).2
      · intro h
        exact List.mem_filter.mpr ⟨hp, h⟩
    · constructor
      · intro h
        have := (List.mem_filter.mp h).2
        simp only [Bool.not_eq_true'] at this
        exact this
      · intro h
        refine List.mem_filter.mpr ⟨hp, ?_⟩
        rw [h]
        rfl

theorem migrate_categorization_partition_witness :
    (migratePromptPermissions noFail scenarioDb true 100).result =
      .ok (.dryRunReport 0 0 ⟨1, 1, 2⟩
        ⟨[⟨"Global prompt...", 101, "Owner + Public VIEW"⟩],
         [⟨"Private prompt...", 102, "Owner only"⟩]⟩) :=
  (migrate_categorization_partition scenarioDb noFail 100 rfl).2.2.2

/-- C7: the live phase is strictly sequential batch processing: batch i is
the slice of length batchSize starting at i * batchSize (the signature
default being 100), the batches concatenate back to the scan order (so every
scanned item is processed in exactly one batch, none twice), and the whole
phase equals the one-item-at-a-time fold; the inter-batch pause does not
change the store state. -/
theorem migrate_batching (b : Nat) (hb : 0 < b) (roles : List AccessRole)
    (fail : GrantCall → Bool) (gids : List Nat) (scanned : List ScannedPrompt)
    (entries0 : List AclEntry) :
    defaultBatchSize = 100 ∧
      (chunks b scanned).flatten = scanned ∧
      (∀ i, (chunks b scanned).get? i =
        if i * b < scanned.length then some ((scanned.drop (i * b)).take b) else none) ∧
      runLive roles fail gids b scanned entries0 =
        scanned.foldl (processItem roles fail gids)
          { report := ⟨0, 0, 0, 0⟩, entries := entries0, calls := [] } :=
  ⟨rfl, chunks_flatten b hb scanned,
    fun i => chunksFuel_get? b hb scanned.length scanned le_rfl i,
    runLive_eq_foldl roles fail gids b hb scanned entries0⟩

theorem migrate_batching_witness :
    defaultBatchSize = 100 ∧
      (chunks 1 (scanPrompts scenarioDb)).flatten = scanPrompts scenarioDb ∧
      (∀ i, (chunks 1 (scanPrompts scenarioDb)).get? i =
        if i * 1 < (scanPrompts scenarioDb).length then
          some (((scanPrompts scenarioDb).drop (i * 1)).take 1) else none) ∧
      runLive scenarioRoles noFail [11] 1 (scanPrompts scenarioDb) [] =
        (scanPrompts scenarioDb).foldl (processItem scenarioRoles noFail [11])
          { report := ⟨0, 0, 0, 0⟩, entries := [], calls := [] } :=
  migrate_batching 1 (by decide) scenarioRoles noFail [11] (scanPrompts scenarioDb) []

/-- C4: in live mode the call trace is, prompt by prompt in scan order, an
owner grant of the prompt to its author followed by a Public viewer grant
exactly when the prompt belongs to a global-project group; over the
two-prompt scenario store (one global, one private, one author) the run
reports migrated 2, errors 0, publicViewGrants 1, ownerGrants 2. -/
theorem migrate_live_grant_policy (db : Store) (b : Nat) (hb : 0 < b)
    (hr : requiredRolesPresent db = true) :
    (migratePromptPermissions noFail db false b).calls =
      ((scanPrompts db).map (fun p =>
        ownerCall p ::
          if isGlobalGroup (globalPromptGroupIds db) p then [publicViewCall p]
          else [])).flatten ∧
      (migratePromptPermissions noFail scenarioDb false 100).result =
        .ok (.liveReport ⟨2, 0, 1, 2⟩) := by
  refine ⟨?_, rfl⟩
  rw [migrate_live_spec db noFail b hb hr]
  have hcalls : itemCalls db.accessRoles noFail (globalPromptGroupIds db) =
      fun p => ownerCall p ::
        if isGlobalGroup (globalPromptGroupIds db) p then [publicViewCall p] else [] := by
    funext p
    unfold itemCalls
    rw [ownerGrantFails_noFail db.accessRoles p (requiredRolesPresent_parts db hr).1]
    rfl
  rw [hcalls]

theorem migrate_live_grant_policy_witness :
    (migratePromptPermissions noFail scenarioDb false 100).calls =
      ((scanPrompts scenarioDb).map (fun p =>
        ownerCall p ::
          if isGlobalGroup (globalPromptGroupIds scenarioDb) p then [publicViewCall p]
          else [])).flatten ∧
      (migratePromptPermissions noFail scenarioDb false 100).result =
        .ok (.liveReport ⟨2, 0, 1, 2⟩) :=
  migrate_live_grant_policy scenarioDb 100 (by decide) rfl

/-- C8: a prompt without an author is excluded from the scan entirely: it
fails the match stage, every scanned prompt has an author, and every grant
call a live run issues belongs to a scanned prompt, so the authorless
prompt is never granted anything and never counted. -/
theorem migrate_excludes_authorless (db : Store) (p : Prompt) (fail : GrantCall → Bool)
    (b : Nat) (hb : 0 < b) (_hmem : p ∈ db.prompts) (ha : p.author = none) :
    scanKeep db.aclEntries p = false ∧
      (∀ q ∈ scanPrompts db, q.author.isSome = true) ∧
      (∀ c ∈ (migratePromptPermissions fail db false b).calls,
        ∃ q ∈ scanPrompts db, c = ownerCall q ∨ c = publicViewCall q) := by
  refine ⟨?_, ?_, ?_⟩
  · rw [scanKeep_eq, ha]
    rfl
  · intro q hq
    obtain ⟨pq, _, hkeep, rfl⟩ := (mem_scanPrompts_iff db q).mp hq
    rw [scanKeep_eq] at hkeep
    exact (Bool.and_eq_true _ _).mp hkeep |>.1
  · intro c hc
    exact migrate_calls_cases db fail b hb c hc

theorem migrate_excludes_authorless_witness :
    scanKeep orphanDb.aclEntries orphanPrompt = false ∧
      (∀ q ∈ scanPrompts orphanDb, q.author.isSome = true) ∧
      (∀ c ∈ (migratePromptPermissions noFail orphanDb false 100).calls,
        ∃ q ∈ scanPrompts orphanDb, c = ownerCall q ∨ c = publicViewCall q) :=
  migrate_excludes_authorless orphanDb orphanPrompt noFail 100 (by decide)
    (by decide) rfl

/-- A scan over a store where every prompt fails the match stage is empty. -/
theorem scanPrompts_eq_nil (db : Store)
    (h : ∀ p ∈ db.prompts, scanKeep db.aclEntries p = false) :
    scanPrompts db = [] := by
  unfold scanPrompts
  have hfil : db.prompts.filter (scanKeep db.aclEntries) = [] := by
    rw [List.filter_eq_nil_iff]
    intro a ha
    simp [h a ha]
  rw [hfil]
  rfl

/-- C5: a prompt that already has a user-principal prompt AclEntry for its
id is excluded from the migration scan entirely: it fails the match stage,
no scanned prompt carries its id, every AclEntry of that resource survives a
live run untouched, and a prompt with an author whose entries are all
non-user is still selected. -/
theorem migrate_skips_user_acl_prompts (db : Store) (p : Prompt) (fail : GrantCall → Bool)
    (b : Nat) (hb : 0 < b) (hu : hasUserPromptEntry db.aclEntries p._id = true) :
    scanKeep db.aclEntries p = false ∧
      (∀ q ∈ scanPrompts db, q._id ≠ p._id) ∧
      (∀ e ∈ db.aclEntries, e.resourceId = p._id →
        e ∈ (migratePromptPermissions fail db false b).entries) ∧
      (∀ q ∈ db.prompts, q.author.isSome = true →
        hasUserPromptEntry db.aclEntries q._id = false →
        toScanned db q ∈ scanPrompts db) := by
  have hne : ∀ q ∈ scanPrompts db, q._id ≠ p._id := by
    intro q hq
    obtain ⟨pq, _, hkeep, rfl⟩ := (mem_scanPrompts_iff db q).mp hq
    rw [scanKeep_eq] at hkeep
    have h2 := ((Bool.and_eq_true _ _).mp hkeep).2
    intro heq
    have heq' : pq._id = p._id := heq
    rw [heq', hu] at h2
    simp at h2
  refine ⟨?_, hne, ?_, ?_⟩
  · rw [scanKeep_eq, hu]
    simp
  · intro e he hres
    by_cases hr : requiredRolesPresent db = true
    · rw [migrate_live_spec db fail b hb hr]
      refine mem_foldl_itemEntries_of_ne _ _ _ _ _ _ he ?_
      intro q hq
      rw [hres]
      exact fun hx => hne q hq hx.symm
    · rw [Bool.not_eq_true] at hr
      rw [migrate_error_spec db fail false b hr]
      exact he
  · intro q hq hauthor hnouser
    refine toScanned_mem_scanPrompts db q hq ?_
    rw [scanKeep_eq, hnouser, hauthor]
    rfl

theorem migrate_skips_user_acl_prompts_witness :
    scanKeep coveredDb.aclEntries coveredPrompt = false ∧
      (∀ q ∈ scanPrompts coveredDb, q._id ≠ coveredPrompt._id) ∧
      (∀ e ∈ coveredDb.aclEntries, e.resourceId = coveredPrompt._id →
        e ∈ (migratePromptPermissions noFail coveredDb false 100).entries) ∧
      (∀ q ∈ coveredDb.prompts, q.author.isSome = true →
        hasUserPromptEntry coveredDb.aclEntries q._id = false →
        toScanned coveredDb q ∈ scanPrompts coveredDb) :=
  migrate_skips_user_acl_prompts coveredDb coveredPrompt noFail 100 (by decide) rfl

/-- C1: with no transient store failures, a second live run over the data
left by a first live run performs zero additional mutations: after the
first run every prompt either carries a user-principal owner entry or was
excluded anyway, so the second scan selects no prompts and the second run
issues no grant call, reports all counters zero, and leaves the entry store
exactly as the first run left it. -/
theorem migrate_second_run_no_mutations (db : Store) (b : Nat) (hb : 0 < b)
    (hr : requiredRolesPresent db = true) :
    scanPrompts
        { db with aclEntries := (migratePromptPermissions noFail db false b).entries } =
      [] ∧
      migratePromptPermissions noFail
          { db with aclEntries := (migratePromptPermissions noFail db false b).entries }
          false b =
        { result := .ok (.liveReport ⟨0, 0, 0, 0⟩)
          entries := (migratePromptPermissions noFail db false b).entries
          calls := [] } := by
  have hE : (migratePromptPermissions noFail db false b).entries =
      (scanPrompts db).foldl
        (itemEntries db.accessRoles noFail (globalPromptGroupIds db)) db.aclEntries := by
    rw [migrate_live_spec db noFail b hb hr]
  have hkeep : ∀ p ∈ db.prompts,
      scanKeep (migratePromptPermissions noFail db false b).entries p = false := by
    intro p hp
    rw [scanKeep_eq]
    cases hauthor : p.author with
    | none => rfl
    | some a =>
        have hfinal : hasUserPromptEntry
            (migratePromptPermissions noFail db false b).entries p._id = true := by
          rw [hE]
          by_cases hu : hasUserPromptEntry db.aclEntries p._id = true
          · exact hasUser_foldl_itemEntries db.accessRoles noFail
              (globalPromptGroupIds db) (scanPrompts db) db.aclEntries p._id hu
          · have hu' : hasUserPromptEntry db.aclEntries p._id = false := by
              cases h : hasUserPromptEntry db.aclEntries p._id
              · rfl
              · exact absurd h hu
            have hkeep1 : scanKeep db.aclEntries p = true := by
              rw [scanKeep_eq, hu', hauthor]
              rfl
            exact hasUser_foldl_all db.accessRoles noFail (globalPromptGroupIds db)
              (scanPrompts db) db.aclEntries
              (fun q _ => ownerGrantFails_noFail db.accessRoles q
                (requiredRolesPresent_parts db hr).1)
              (toScanned db p) (toScanned_mem_scanPrompts db p hp hkeep1)
        rw [hfinal]
        simp
  have hscan2 : scanPrompts
      { db with aclEntries := (migratePromptPermissions noFail db false b).entries } =
      [] :=
    scanPrompts_eq_nil _ (fun p hp => hkeep p hp)
  refine ⟨hscan2, ?_⟩
  rw [migrate_live_spec
      { db with aclEntries := (migratePromptPermissions noFail db false b).entries }
      noFail b hb hr, hscan2]
  rfl

theorem migrate_second_run_no_mutations_witness :
    scanPrompts
        { scenarioDb with
          aclEntries := (migratePromptPermissions noFail scenarioDb false 100).entries } =
      [] ∧
      migratePromptPermissions noFail
          { scenarioDb with
            aclEntries := (migratePromptPermissions noFail scenarioDb false 100).entries }
          false 100 =
        { result := .ok (.liveReport ⟨0, 0, 0, 0⟩)
          entries := (migratePromptPermissions noFail scenarioDb false 100).entries
          calls := [] } :=
  migrate_second_run_no_mutations scenarioDb 100 (by decide) rfl

end PromptMigration
